import Mathlib

/-!
Verification development for the brians-brain-sync-worker repository.

The definitions below are a shallow embedding of the incremental
synchronization and deduplication pipeline: the JavaScript/TypeScript
sources are translated function by function into executable Lean
definitions (database tables become lists of rows, asynchronous I/O
becomes explicit state passing, environmental failures become injected
parameters), and the theorems at the end of the file settle the spec
claims against these definitions.
-/

/-! ## JavaScript value helpers

The source relies on JavaScript truthiness (`a || b`, `if (!x)`).
Optional string fields are modelled as `Option String`; `none` models
`undefined`/`null` and `some ""` models the (falsy) empty string.
-/

/-- Truthiness of an optional string, as JavaScript sees it:
`undefined`, `null` and `""` are falsy. -/
def jsTruthy : Option String → Bool
  | none => false
  | some s => s != ""

/-- JavaScript `a || b` on optional strings. -/
def jsOrOpt (a b : Option String) : Option String :=
  if jsTruthy a then a else b

/-- JavaScript `a || b` where the fallback is a plain string
(e.g. `message.subject || '(No Subject)'`). -/
def jsStr (a : Option String) (b : String) : String :=
  match a with
  | some s => if s != "" then s else b
  | none => b

/-- Supabase `.maybeSingle()`: `some none` for zero rows, `some (some r)`
for exactly one row, and `none` (an error result) for two or more rows. -/
def maybeSingle {α : Type} : List α → Option (Option α)
  | [] => some none
  | [a] => some (some a)
  | _ => none

/-! ## HTML body extraction

`extractBodyText` in the processors strips tags with
`.replace(/<[^>]*>/g, ' ')`, collapses whitespace with
`.replace(/\s+/g, ' ')` and trims. The three steps are modelled
character-exactly below.
-/

/-- One `<[^>]*>` match spans from a `<` to the first following `>`;
if no `>` follows anywhere, nothing from this position on can match. -/
def stripTagsAux : Nat → List Char → List Char
  | 0, cs => cs
  | _ + 1, [] => []
  | fuel + 1, c :: rest =>
    if c = '<' then
      if rest.contains '>' then
        ' ' :: stripTagsAux fuel ((rest.dropWhile (· ≠ '>')).drop 1)
      else
        c :: rest
    else
      c :: stripTagsAux fuel rest

/-- Replace every `<[^>]*>` match by a single space. -/
def stripTags (s : String) : String :=
  ⟨stripTagsAux s.length s.data⟩

/-- Characters matched by the regex class `\s` (the ASCII ones). -/
def isWsChar (c : Char) : Bool :=
  c = ' ' || c = '\t' || c = '\n' || c = '\r' || c = '\x0b' || c = '\x0c'

/-- Replace every maximal run of whitespace by a single space
(the effect of `.replace(/\s+/g, ' ')`). -/
def collapseWs : List Char → List Char
  | [] => []
  | [c] => if isWsChar c then [' '] else [c]
  | c :: d :: rest =>
    if isWsChar c && isWsChar d then
      collapseWs (d :: rest)
    else
      (if isWsChar c then ' ' else c) :: collapseWs (d :: rest)

/-- Drop leading and trailing whitespace (the effect of `.trim()`). -/
def trimChars (cs : List Char) : List Char :=
  ((cs.dropWhile isWsChar).reverse.dropWhile isWsChar).reverse

/-- The full `html` branch of `extractBodyText`: strip tags, collapse
whitespace, trim. -/
def htmlToText (s : String) : String :=
  ⟨trimChars (collapseWs (stripTags s).data)⟩

/-! ## Raw provider records

Only the fields the embedded control flow reads are modelled; the
remaining payload fields are carried opaquely by the real code inside
the `raw` JSON column and never influence any branch of the core.
-/

/-- The `body` object of a Microsoft Graph message or event. -/
structure RawBody where
  contentType : Option String
  content : Option String
  deriving Repr, DecidableEq

/-- A raw Microsoft Graph message, with the fields the processors read. -/
structure RawMessage where
  id : Option String
  internetMessageId : Option String
  subject : Option String
  receivedDateTime : Option String
  sentDateTime : Option String
  body : Option RawBody
  deriving Repr, DecidableEq

/-- A raw Microsoft Graph calendar event, with the fields the
processors read. Graph always supplies `id`; `iCalUId` may be absent. -/
structure RawGraphEvent where
  id : String
  iCalUId : Option String
  subject : Option String
  startDateTime : Option String
  createdDateTime : Option String
  body : Option RawBody
  deriving Repr, DecidableEq

/-- `extractBodyText` as shared by the processors, acting on an
optional `body` object: plain text verbatim, HTML stripped, anything
else passed through raw. -/
def extractBodyText (body : Option RawBody) : String :=
  match body with
  | none => ""
  | some b =>
    if b.contentType = some "text" then jsStr b.content ""
    else if b.contentType = some "html" then htmlToText (jsStr b.content "")
    else jsStr b.content ""

/-! ## The event store

The `events` table. A row keeps the columns the core reads or writes;
`raw_iCalUId` models the JSON access `raw->>'iCalUId'` on the stored
raw payload (`none` when the stored record had no such field, as for
emails). The free-form `metadata` JSON column is never read by any
embedded operation and is not modelled.
-/

/-- A stored row of the `events` table. -/
structure StoredEvent where
  rowId : Nat
  user_id : String
  event_type : String
  source : String
  external_id : String
  subject : String
  body_text : String
  created_at_ts : String
  raw_iCalUId : Option String
  deriving Repr, DecidableEq

/-- A row of the `duplicate_prevention_log` table. -/
structure DupLogEntry where
  event_type : String
  identifier : String
  subject : Option String
  existing_event_id : Nat
  source : String
  deriving Repr, DecidableEq

/-- The mutable datastore state touched by the writers: the `events`
table, the next fresh row id the database would assign, and the
append-only duplicate-prevention log. -/
structure SyncDb where
  events : List StoredEvent
  nextId : Nat
  dupLog : List DupLogEntry
  deriving Repr, DecidableEq

/-- Number of stored events with the given (event type, external id)
pair — the pair whose uniqueness the Deduplicating Writer must uphold. -/
def countKey (events : List StoredEvent) (ty k : String) : Nat :=
  (events.filter (fun e => e.event_type == ty && e.external_id == k)).length

/-- Number of stored meeting rows whose raw payload carries the given
calendar UID (the key of the calendar duplicate check). -/
def countUid (events : List StoredEvent) (uid : String) : Nat :=
  (events.filter (fun e => e.event_type == "meeting" && e.raw_iCalUId == some uid)).length

/-- The store invariant claimed by the spec: at most one row per
(event type, external identifier) pair. -/
def UniquePairs (events : List StoredEvent) : Prop :=
  ∀ ty k, countKey events ty k ≤ 1

/-! ## The deduplicating email writer

Embedding of `EmailProcessor` from `src/index.ts` (the variant the
spec's Deduplicating Writer describes; the same class is written to
`src/processors/email.processor.ts` by the repository's setup script).
The `connectionId`/`connectionEmail` parameters of the source are used
only in log lines and are omitted. Whether a given existence lookup
errors is environmental; it is injected as the `lerr` parameter.
-/

namespace EmailProcessor

/-- Per-batch counters returned by `processMessages`. -/
structure Stats where
  inserted : Nat
  duplicates : Nat
  skipped : Nat
  deriving Repr, DecidableEq

/-- Pointwise sum of two counter records. -/
def Stats.add (a b : Stats) : Stats :=
  ⟨a.inserted + b.inserted, a.duplicates + b.duplicates, a.skipped + b.skipped⟩

/-- `checkForDuplicateEmail`: select rows with `event_type = 'email'`
and `external_id = messageId`, `.maybeSingle()`; on a query error the
source logs and returns `null` (fail-open), modelled by the `err` flag
and by the `none` (multi-row) result of `maybeSingle`. -/
def checkForDuplicateEmail (events : List StoredEvent) (err : Bool)
    (messageId : String) : Option StoredEvent :=
  if err then none
  else
    match maybeSingle (events.filter
        (fun e => e.event_type == "email" && e.external_id == messageId)) with
    | some found => found
    | none => none

/-- `extractBodyText(message)` reads `message.body`. -/
def extractMessageBody (m : RawMessage) : String :=
  extractBodyText m.body

/-- The row inserted for a non-duplicate message
(`eventData` in the source; `now` stands for `new Date().toISOString()`). -/
def messageEventData (now : String) (m : RawMessage) (messageId : String)
    (rowId : Nat) : StoredEvent :=
  { rowId := rowId
    user_id := "3ccb8364-da19-482e-b3fa-6ee4ed40820b"
    event_type := "email"
    source := "microsoft_graph"
    external_id := messageId
    subject := jsStr m.subject "(No Subject)"
    body_text := extractMessageBody m
    created_at_ts := jsStr m.receivedDateTime (jsStr m.sentDateTime now)
    raw_iCalUId := none }

/-- One iteration of the `processMessages` loop: resolve
`message.internetMessageId || message.id`, skip when falsy, otherwise
check-then-insert, logging prevented duplicates. -/
def processOneMessage (now : String) (lerr : RawMessage → Bool)
    (db : SyncDb) (m : RawMessage) : SyncDb × Stats :=
  let messageId := jsOrOpt m.internetMessageId m.id
  if jsTruthy messageId then
    let mid := messageId.getD ""
    match checkForDuplicateEmail db.events (lerr m) mid with
    | some existing =>
      ({ db with dupLog := db.dupLog ++
          [⟨"email", mid, m.subject, existing.rowId, "email_processor"⟩] },
       ⟨0, 1, 0⟩)
    | none =>
      ({ db with
          events := db.events ++ [messageEventData now m mid db.nextId]
          nextId := db.nextId + 1 },
       ⟨1, 0, 0⟩)
  else
    (db, ⟨0, 0, 1⟩)

/-- `processMessages`: fold the per-message step over the batch in
fetch order, summing the counters. -/
def processMessages (now : String) (lerr : RawMessage → Bool)
    (db : SyncDb) : List RawMessage → SyncDb × Stats
  | [] => (db, ⟨0, 0, 0⟩)
  | m :: rest =>
    let step := processOneMessage now lerr db m
    let recur := processMessages now lerr step.1 rest
    (recur.1, step.2.add recur.2)

end EmailProcessor

/-! ## The shared event upsert and the run ledger

Embedding of `SupabaseService` (`src/services/supabase.service.ts`).
-/

namespace SupabaseService

/-- The `event` object handed to `upsertEvent` by the processors. -/
structure EventData where
  user_id : String
  event_type : String
  source : String
  external_id : String
  subject : String
  body_text : String
  created_at_ts : String
  raw_iCalUId : Option String
  deriving Repr, DecidableEq

/-- Materialize an `EventData` as a fresh stored row with the given id. -/
def EventData.toStored (ev : EventData) (rowId : Nat) : StoredEvent :=
  { rowId := rowId
    user_id := ev.user_id
    event_type := ev.event_type
    source := ev.source
    external_id := ev.external_id
    subject := ev.subject
    body_text := ev.body_text
    created_at_ts := ev.created_at_ts
    raw_iCalUId := ev.raw_iCalUId }

/-- Overwrite a stored row's columns with an `EventData`
(the effect of `.update(event).eq('id', existing.id)`). -/
def EventData.applyTo (ev : EventData) (e : StoredEvent) : StoredEvent :=
  { e with
      user_id := ev.user_id
      event_type := ev.event_type
      source := ev.source
      external_id := ev.external_id
      subject := ev.subject
      body_text := ev.body_text
      created_at_ts := ev.created_at_ts
      raw_iCalUId := ev.raw_iCalUId }

/-- `upsertEvent`: look up an existing row by `external_id` alone with
`.maybeSingle()` (the error result is destructured away, so an errored
lookup falls through to the insert branch); update the found row in
place, otherwise insert a fresh row. Returns the new table, the next
fresh id, and the returned event id. -/
def upsertEvent (events : List StoredEvent) (nextId : Nat)
    (ev : EventData) : List StoredEvent × Nat × Nat :=
  match maybeSingle (events.filter (fun e => e.external_id == ev.external_id)) with
  | some (some existing) =>
    (events.map (fun e => if e.rowId == existing.rowId then ev.applyTo e else e),
     nextId, existing.rowId)
  | _ =>
    (events ++ [ev.toStored nextId], nextId + 1, nextId)

/-- Status column of an `ingestion_runs` row. -/
inductive RunStatus where
  | running
  | success
  | failed
  deriving Repr, DecidableEq

/-- A row of the `ingestion_runs` table. -/
structure RunRow where
  id : Nat
  connection_id : String
  status : RunStatus
  started_at : String
  finished_at : Option String
  error_message : Option String
  items_processed : Option Nat
  items_created : Option Nat
  items_updated : Option Nat
  deriving Repr, DecidableEq

/-- The `stats` object the orchestrators pass to `completeIngestionRun`. -/
structure RunStats where
  items_processed : Nat
  items_created : Nat
  items_updated : Nat
  deriving Repr, DecidableEq

/-- `createIngestionRun`: insert a `running` row with a start timestamp
and return its id (`newId` models the id the database assigns). -/
def createIngestionRun (runs : List RunRow) (newId : Nat)
    (connectionId now : String) : List RunRow :=
  runs ++ [{ id := newId
             connection_id := connectionId
             status := .running
             started_at := now
             finished_at := none
             error_message := none
             items_processed := none
             items_created := none
             items_updated := none }]

/-- `completeIngestionRun`: update the run row to `success` and set
`finished_at`. The `stats` argument is accepted but never written —
exactly as in the source, which ignores its `stats` parameter. -/
def completeIngestionRun (runs : List RunRow) (runId : Nat) (now : String)
    (_stats : RunStats) : List RunRow :=
  runs.map (fun r =>
    if r.id == runId then { r with status := .success, finished_at := some now }
    else r)

/-- `failIngestionRun`: update the run row to `failed`, record the
error message and set `finished_at`. -/
def failIngestionRun (runs : List RunRow) (runId : Nat)
    (errorMessage now : String) : List RunRow :=
  runs.map (fun r =>
    if r.id == runId then
      { r with status := .failed, finished_at := some now,
               error_message := some errorMessage }
    else r)

end SupabaseService

/-! ## The calendar processors

The repository carries three generations of the calendar processor:

* `CalendarProcessor` — `src/processors/calendar.processor.ts`, the
  module the orchestrators import: no duplicate handling of its own,
  every record goes through `SupabaseService.upsertEvent`;
* `CalendarProcessorICal` — the variant adding an `isDuplicate` check
  on the recurrence-stable `iCalUId` for records that carry one;
* `CalendarProcessorV2` — the newest variant, which warns about and
  skips records lacking an `iCalUId` and inserts directly instead of
  upserting.
-/

namespace CalendarProcessor

/-- Counters returned by `processEvents` (`updated` is never incremented). -/
structure Stats where
  created : Nat
  updated : Nat
  deriving Repr, DecidableEq

/-- Pointwise sum of two counter records. -/
def Stats.add (a b : Stats) : Stats :=
  ⟨a.created + b.created, a.updated + b.updated⟩

/-- The `event` object built for one raw Graph event (shared verbatim
by this processor and by `CalendarProcessorICal`). -/
def calendarEventData (now : String) (g : RawGraphEvent) :
    SupabaseService.EventData :=
  { user_id := "3ccb8364-da19-782e-b3fa-6ee4ed40820b"
    event_type := "meeting"
    source := "microsoft_graph"
    external_id := g.id
    created_at_ts := jsStr g.startDateTime now
    subject := jsStr g.subject "(No Subject)"
    body_text := jsStr (g.body.bind RawBody.content) ""
    raw_iCalUId := g.iCalUId }

/-- One iteration of the `processEvents` loop: build the event object
and hand it to `upsertEvent`, counting every record as created. -/
def processOneEvent (now : String) (db : SyncDb) (g : RawGraphEvent) : SyncDb :=
  let up := SupabaseService.upsertEvent db.events db.nextId (calendarEventData now g)
  { db with events := up.1, nextId := up.2.1 }

/-- `processEvents`: fold the per-record step over the batch. -/
def processEvents (now : String) (db : SyncDb) :
    List RawGraphEvent → SyncDb × Stats
  | [] => (db, ⟨0, 0⟩)
  | g :: rest =>
    let db1 := processOneEvent now db g
    let recur := processEvents now db1 rest
    (recur.1, Stats.add ⟨1, 0⟩ recur.2)

end CalendarProcessor

namespace CalendarProcessorICal

/-- Counters returned by `processEvents`. -/
structure Stats where
  created : Nat
  updated : Nat
  skipped : Nat
  deriving Repr, DecidableEq

/-- Pointwise sum of two counter records. -/
def Stats.add (a b : Stats) : Stats :=
  ⟨a.created + b.created, a.updated + b.updated, a.skipped + b.skipped⟩

/-- `isDuplicate`: select a meeting row whose stored raw payload has
this `iCalUId`, `.maybeSingle()`; any check failure returns `false`
("if check fails, allow insert"), modelled by the `err` flag and by
the `none` (multi-row) result of `maybeSingle`. -/
def isDuplicate (events : List StoredEvent) (err : Bool) (uid : String) : Bool :=
  if err then false
  else
    match maybeSingle (events.filter
        (fun e => e.event_type == "meeting" && e.raw_iCalUId == some uid)) with
    | some found => found.isSome
    | none => false

/-- One iteration of the `processEvents` loop: records carrying an
`iCalUId` are checked for duplicates first; records without one go
straight to the upsert, with no flag of any kind. -/
def processOneEvent (now : String) (lerr : RawGraphEvent → Bool)
    (db : SyncDb) (g : RawGraphEvent) : SyncDb × Stats :=
  if jsTruthy g.iCalUId then
    if isDuplicate db.events (lerr g) (g.iCalUId.getD "") then
      (db, ⟨0, 0, 1⟩)
    else
      let up := SupabaseService.upsertEvent db.events db.nextId
        (CalendarProcessor.calendarEventData now g)
      ({ db with events := up.1, nextId := up.2.1 }, ⟨1, 0, 0⟩)
  else
    let up := SupabaseService.upsertEvent db.events db.nextId
      (CalendarProcessor.calendarEventData now g)
    ({ db with events := up.1, nextId := up.2.1 }, ⟨1, 0, 0⟩)

/-- `processEvents` of the `iCalUId`-checking variant. -/
def processEvents (now : String) (lerr : RawGraphEvent → Bool)
    (db : SyncDb) : List RawGraphEvent → SyncDb × Stats
  | [] => (db, ⟨0, 0, 0⟩)
  | g :: rest =>
    let step := processOneEvent now lerr db g
    let recur := processEvents now lerr step.1 rest
    (recur.1, step.2.add recur.2)

end CalendarProcessorICal

namespace CalendarProcessorV2

/-- Counters returned by `processCalendarEvents`. -/
structure Stats where
  inserted : Nat
  duplicates : Nat
  skipped : Nat
  deriving Repr, DecidableEq

/-- Pointwise sum of two counter records. -/
def Stats.add (a b : Stats) : Stats :=
  ⟨a.inserted + b.inserted, a.duplicates + b.duplicates, a.skipped + b.skipped⟩

/-- `checkForDuplicateEvent`: select meeting rows whose stored raw
payload carries this `iCalUId`, `.maybeSingle()`; fail-open on error. -/
def checkForDuplicateEvent (events : List StoredEvent) (err : Bool)
    (uid : String) : Option StoredEvent :=
  if err then none
  else
    match maybeSingle (events.filter
        (fun e => e.event_type == "meeting" && e.raw_iCalUId == some uid)) with
    | some found => found
    | none => none

/-- The `eventData` object inserted for a non-duplicate calendar event. -/
def calendarEventData (now : String) (g : RawGraphEvent) (rowId : Nat) :
    StoredEvent :=
  { rowId := rowId
    user_id := "3ccb8364-da19-482e-b3fa-6ee4ed40820b"
    event_type := "meeting"
    source := "microsoft_graph"
    external_id := g.id
    subject := jsStr g.subject "(No Subject)"
    body_text := extractBodyText g.body
    created_at_ts := jsStr g.startDateTime (jsStr g.createdDateTime now)
    raw_iCalUId := g.iCalUId }

/-- One iteration of the `processCalendarEvents` loop. A record with
no `iCalUId` is flagged — `console.warn`, modelled by appending its
subject to the returned `warned` list — and skipped without being
stored; otherwise check-then-insert with duplicate logging. -/
def processOneCalendarEvent (now : String) (lerr : RawGraphEvent → Bool)
    (db : SyncDb) (g : RawGraphEvent) :
    SyncDb × Stats × List (Option String) :=
  if jsTruthy g.iCalUId then
    let uid := g.iCalUId.getD ""
    match checkForDuplicateEvent db.events (lerr g) uid with
    | some existing =>
      ({ db with dupLog := db.dupLog ++
          [⟨"meeting", uid, g.subject, existing.rowId, "calendar_processor"⟩] },
       ⟨0, 1, 0⟩, [])
    | none =>
      ({ db with
          events := db.events ++ [calendarEventData now g db.nextId]
          nextId := db.nextId + 1 },
       ⟨1, 0, 0⟩, [])
  else
    (db, ⟨0, 0, 1⟩, [g.subject])

/-- `processCalendarEvents` of the newest variant; the third component
collects the `console.warn` flags. -/
def processCalendarEvents (now : String) (lerr : RawGraphEvent → Bool)
    (db : SyncDb) : List RawGraphEvent → SyncDb × Stats × List (Option String)
  | [] => (db, ⟨0, 0, 0⟩, [])
  | g :: rest =>
    let step := processOneCalendarEvent now lerr db g
    let recur := processCalendarEvents now lerr step.1 rest
    (recur.1, step.2.1.add recur.2.1, step.2.2 ++ recur.2.2)

end CalendarProcessorV2

/-! ## The sync orchestration

Embedding of `performSync` (`src/routes/sync.ts`) and of the
structurally identical `Scheduler.syncConnection`. The bodies of the
intermediate steps are external I/O; what matters to the run ledger is
only whether some step throws, so each step is mapped to an injected
`Option String` (the thrown error message, if any). The whole body
after `createIngestionRun` sits in one `try`, whose `catch` calls
`failIngestionRun`; a missing account email aborts before any ledger
row is written, and a failing `createIngestionRun` itself propagates,
likewise leaving no row behind.
-/

/-- The steps of one orchestration run that can throw after `begin`
(in `performSync`: token refresh, the two fetches done by
`Promise.all`, per-folder message processing, calendar fetch,
calendar processing). -/
inductive SyncStep where
  | ensureValidToken
  | fetchInbox
  | fetchSent
  | processInbox
  | processSent
  | fetchCalendar
  | processCalendar
  deriving Repr, DecidableEq

/-- The order in which the orchestration body runs its steps. -/
def syncSteps : List SyncStep :=
  [.ensureValidToken, .fetchInbox, .fetchSent, .processInbox,
   .processSent, .fetchCalendar, .processCalendar]

/-- The first injected exception along the step sequence, if any —
the error the `catch` block observes. -/
def firstFailure (fails : SyncStep → Option String) :
    List SyncStep → Option String
  | [] => none
  | s :: rest =>
    match fails s with
    | some msg => some msg
    | none => firstFailure fails rest

/-- `performSync`: abort silently without a ledger row when the
connection has no configured email or when `createIngestionRun` itself
throws; otherwise insert the `running` row and finalize it through
exactly one of `completeIngestionRun` / `failIngestionRun`, depending
on whether any step of the body throws. -/
def performSync (hasEmail beginOk : Bool) (fails : SyncStep → Option String)
    (runs : List SupabaseService.RunRow) (runId : Nat)
    (connectionId now : String) (stats : SupabaseService.RunStats) :
    List SupabaseService.RunRow :=
  if !hasEmail then runs
  else if !beginOk then runs
  else
    let runs1 := SupabaseService.createIngestionRun runs runId connectionId now
    match firstFailure fails syncSteps with
    | some msg => SupabaseService.failIngestionRun runs1 runId msg now
    | none => SupabaseService.completeIngestionRun runs1 runId now stats

/-! ## The provider fetcher and the cursor store

Embedding of `MicrosoftService` (the delta-query variant) together
with its inlined `sync_state` cursor handling. Provider requests are
modelled structurally: the two initial windowed queries carry their
date bounds as days-since-epoch integers (`new Date()` arithmetic), and
every follow-up or resumed request is an opaque link. The provider
itself is a function from request to response, erroring responses
included.
-/

namespace MicrosoftService

/-- The constant `USER_ID` baked into the service. -/
def USER_ID : String := "3ccb8364-da19-782e-b3fa-6ee4ed40820b"

/-- A row of the `sync_state` table. -/
structure SyncRow where
  user_id : String
  service : String
  account_email : String
  resource_type : String
  delta_link : String
  last_sync_at : String
  deriving Repr, DecidableEq

/-- The row filter every `sync_state` query applies:
`user_id`, `service`, `account_email` and `resource_type`. -/
def keyMatches (r : SyncRow) (acct rt : String) : Bool :=
  r.user_id == USER_ID && r.service == "microsoft_graph" &&
  r.account_email == acct && r.resource_type == rt

/-- `getDeltaLink`: `.single()` errors unless exactly one row matches,
and every error path returns `null`; a surviving row contributes
`data?.delta_link || null`. -/
def getDeltaLink (rows : List SyncRow) (acct rt : String) : Option String :=
  match rows.filter (keyMatches · acct rt) with
  | [r] => if r.delta_link != "" then some r.delta_link else none
  | _ => none

/-- `saveDeltaLink`: upsert keyed on
(`user_id`, `service`, `account_email`, `resource_type`), refreshing
`last_sync_at`. -/
def saveDeltaLink (rows : List SyncRow) (acct rt dl nowIso : String) :
    List SyncRow :=
  if (rows.filter (keyMatches · acct rt)).isEmpty then
    rows ++ [⟨USER_ID, "microsoft_graph", acct, rt, dl, nowIso⟩]
  else
    rows.map (fun r =>
      if keyMatches r acct rt then { r with delta_link := dl, last_sync_at := nowIso }
      else r)

/-- The `.delete()` performed when the provider reports the stored
token invalid. -/
def clearDeltaLink (rows : List SyncRow) (acct rt : String) : List SyncRow :=
  rows.filter (fun r => !keyMatches r acct rt)

/-- A request the fetch loop can issue: one of the two initial
windowed delta queries (date bounds in days, mirroring the
`new Date()` arithmetic on `daysBack` and the fixed 90-day horizon),
or an opaque stored/next link. -/
inductive GraphRequest where
  | initialMessages (receivedAfter : Int)
  | initialCalendar (startDateTime endDateTime : Int)
  | link (url : String)
  deriving Repr, DecidableEq

/-- A provider response page. -/
structure GraphPage (α : Type) where
  value : List α
  nextLink : Option String
  deltaLink : Option String
  deriving Repr, DecidableEq

/-- An error thrown by the Graph client. -/
structure GraphError where
  message : String
  statusCode : Option Nat
  deriving Repr, DecidableEq

/-- The substring test behind `String.includes`: does the needle occur
as a contiguous run of the haystack? -/
def hasInfix (needle : List Char) : List Char → Bool
  | [] => needle.isEmpty
  | c :: rest => needle.isPrefixOf (c :: rest) || hasInfix needle rest

/-- The test applied in both `catch` blocks:
`error.message?.includes('delta') || error.statusCode === 410`. -/
def isInvalidCursorError (e : GraphError) : Bool :=
  hasInfix "delta".data e.message.data || e.statusCode == some 410

/-- The shared pagination loop
(`while (url && pageCount < maxPages) { ... }` with `maxPages = 20`):
fetch the current request, append its records (the source guards the
concat with a non-emptiness check), follow a truthy
`@odata.nextLink`, otherwise capture a truthy `@odata.deltaLink` and
break. The returned trace lists every request actually fetched, so
`trace.length` is the final `pageCount`. An initial or next link is
always a truthy URL, so the `url &&` conjunct only re-examines the
link the loop itself just assigned. -/
def fetchPagesAux {α : Type} (provider : GraphRequest → Except GraphError (GraphPage α))
    (maxPages : Nat) :
    Nat → GraphRequest → Nat → List α → Option String → List GraphRequest →
    Except GraphError (List α × Option String × List GraphRequest)
  | 0, _, _, acc, dl, trace => .ok (acc, dl, trace)
  | fuel + 1, req, pageCount, acc, dl, trace =>
    if pageCount < maxPages then
      match provider req with
      | .error e => .error e
      | .ok page =>
        let acc' := if page.value.isEmpty then acc else acc ++ page.value
        let trace' := trace ++ [req]
        if jsTruthy page.nextLink then
          fetchPagesAux provider maxPages fuel (.link (page.nextLink.getD ""))
            (pageCount + 1) acc' dl trace'
        else
          .ok (acc', if jsTruthy page.deltaLink then page.deltaLink else dl, trace')
    else
      .ok (acc, dl, trace)

/-- The delta/continuation token the loop surfaces, characterized by
the final fetched page: it exists exactly when the last page of the
trace came back without a (truthy) next-page link and with a (truthy)
delta token. -/
def lastPageDelta {α : Type} (provider : GraphRequest → Except GraphError (GraphPage α))
    (trace : List GraphRequest) : Option String :=
  match trace.getLast? with
  | none => none
  | some r =>
    match provider r with
    | .error _ => none
    | .ok page =>
      if jsTruthy page.nextLink then none
      else if jsTruthy page.deltaLink then page.deltaLink else none

/-- `fetchMessages`: resume from a stored cursor when one exists,
otherwise issue the initial windowed delta query over the lookback
window; run the pagination loop; persist a surfaced delta link; on an
error identified as an invalid cursor, delete the stored cursor row —
and rethrow either way. Returns the new `sync_state` table and either
the error or the batch, the surfaced cursor and the request trace. -/
def fetchMessages (provider : GraphRequest → Except GraphError (GraphPage RawMessage))
    (rows : List SyncRow) (acct : String) (daysBack now : Int) (nowIso : String) :
    List SyncRow × Except GraphError (List RawMessage × Option String × List GraphRequest) :=
  let stored := getDeltaLink rows acct "messages"
  let req0 : GraphRequest :=
    match stored with
    | some dl => .link dl
    | none => .initialMessages (now - daysBack)
  match fetchPagesAux provider 20 20 req0 0 [] none [] with
  | .ok (msgs, deltaLink, trace) =>
    let rows' :=
      match deltaLink with
      | some dl => saveDeltaLink rows acct "messages" dl nowIso
      | none => rows
    (rows', .ok (msgs, deltaLink, trace))
  | .error e =>
    if isInvalidCursorError e then
      (clearDeltaLink rows acct "messages", .error e)
    else
      (rows, .error e)

/-- `fetchCalendarEvents`: identical loop over the `calendar` resource
type, with the initial window running from the lookback start to 90
days in the future. -/
def fetchCalendarEvents (provider : GraphRequest → Except GraphError (GraphPage RawGraphEvent))
    (rows : List SyncRow) (acct : String) (daysBack now : Int) (nowIso : String) :
    List SyncRow × Except GraphError (List RawGraphEvent × Option String × List GraphRequest) :=
  let stored := getDeltaLink rows acct "calendar"
  let req0 : GraphRequest :=
    match stored with
    | some dl => .link dl
    | none => .initialCalendar (now - daysBack) (now + 90)
  match fetchPagesAux provider 20 20 req0 0 [] none [] with
  | .ok (evs, deltaLink, trace) =>
    let rows' :=
      match deltaLink with
      | some dl => saveDeltaLink rows acct "calendar" dl nowIso
      | none => rows
    (rows', .ok (evs, deltaLink, trace))
  | .error e =>
    if isInvalidCursorError e then
      (clearDeltaLink rows acct "calendar", .error e)
    else
      (rows, .error e)

end MicrosoftService

/-! ## Supporting lemmas -/

theorem countKey_append (es es' : List StoredEvent) (ty k : String) :
    countKey (es ++ es') ty k = countKey es ty k + countKey es' ty k := by
  simp [countKey, List.filter_append]

theorem countKey_singleton (e : StoredEvent) (ty k : String) :
    countKey [e] ty k =
      if e.event_type == ty && e.external_id == k then 1 else 0 := by
  by_cases h : (e.event_type == ty && e.external_id == k) = true
  · simp [countKey, h]
  · simp [countKey, h]

/-- Outcomes of the email existence lookup when the query itself does
not error: it answers `none` on zero matching rows (or on the
`maybeSingle` multi-row error), and the unique matching row otherwise. -/
theorem checkForDuplicateEmail_cases (events : List StoredEvent) (mid : String) :
    (EmailProcessor.checkForDuplicateEmail events false mid = none ∧
      (countKey events "email" mid = 0 ∨ 2 ≤ countKey events "email" mid)) ∨
    (∃ e, EmailProcessor.checkForDuplicateEmail events false mid = some e ∧
      countKey events "email" mid = 1 ∧
      events.filter (fun x => x.event_type == "email" && x.external_id == mid) = [e]) := by
  match hf : events.filter (fun x => x.event_type == "email" && x.external_id == mid) with
  | [] =>
    left
    constructor
    · unfold EmailProcessor.checkForDuplicateEmail
      rw [if_neg (by simp), hf]
      rfl
    · left
      unfold countKey
      rw [hf]
      rfl
  | [e] =>
    right
    refine ⟨e, ?_, ?_, hf⟩
    · unfold EmailProcessor.checkForDuplicateEmail
      rw [if_neg (by simp), hf]
      rfl
    · unfold countKey
      rw [hf]
      rfl
  | a :: b :: t =>
    left
    constructor
    · unfold EmailProcessor.checkForDuplicateEmail
      rw [if_neg (by simp), hf]
      rfl
    · right
      unfold countKey
      rw [hf]
      simp

/-- An errored existence lookup reports "no duplicate" (fail-open). -/
theorem checkForDuplicateEmail_err (events : List StoredEvent) (mid : String) :
    EmailProcessor.checkForDuplicateEmail events true mid = none := by
  simp [EmailProcessor.checkForDuplicateEmail]

/-- Branch equation: a message whose resolved identifier is falsy is
skipped. -/
theorem processOneMessage_skip (now : String) (lerr : RawMessage → Bool)
    (db : SyncDb) (m : RawMessage)
    (ht : jsTruthy (jsOrOpt m.internetMessageId m.id) = false) :
    EmailProcessor.processOneMessage now lerr db m = (db, ⟨0, 0, 1⟩) := by
  simp [EmailProcessor.processOneMessage, ht]

/-- Branch equation: a found duplicate only appends a
duplicate-prevention log entry. -/
theorem processOneMessage_dup (now : String) (lerr : RawMessage → Bool)
    (db : SyncDb) (m : RawMessage) (b : Bool) (e : StoredEvent) (hl : lerr m = b)
    (ht : jsTruthy (jsOrOpt m.internetMessageId m.id) = true)
    (hchk : EmailProcessor.checkForDuplicateEmail db.events b
      ((jsOrOpt m.internetMessageId m.id).getD "") = some e) :
    EmailProcessor.processOneMessage now lerr db m =
      ({ db with dupLog := db.dupLog ++
          [⟨"email", (jsOrOpt m.internetMessageId m.id).getD "", m.subject,
            e.rowId, "email_processor"⟩] }, ⟨0, 1, 0⟩) := by
  simp [EmailProcessor.processOneMessage, hl, ht, hchk]

/-- Branch equation: a message not reported as a duplicate is inserted. -/
theorem processOneMessage_insert (now : String) (lerr : RawMessage → Bool)
    (db : SyncDb) (m : RawMessage) (b : Bool) (hl : lerr m = b)
    (ht : jsTruthy (jsOrOpt m.internetMessageId m.id) = true)
    (hchk : EmailProcessor.checkForDuplicateEmail db.events b
      ((jsOrOpt m.internetMessageId m.id).getD "") = none) :
    EmailProcessor.processOneMessage now lerr db m =
      ({ db with
          events := db.events ++ [EmailProcessor.messageEventData now m
            ((jsOrOpt m.internetMessageId m.id).getD "") db.nextId]
          nextId := db.nextId + 1 }, ⟨1, 0, 0⟩) := by
  simp [EmailProcessor.processOneMessage, hl, ht, hchk]

/-- One no-error step of the deduplicating email writer preserves the
pair-uniqueness invariant, never removes rows for any key, and leaves
exactly one row under the key of the processed message. -/
theorem processOneMessage_noerr (now : String) (lerr : RawMessage → Bool)
    (db : SyncDb) (m : RawMessage) (hl : lerr m = false) (hU : UniquePairs db.events) :
    UniquePairs ((EmailProcessor.processOneMessage now lerr db m).1).events ∧
    (∀ ty k, countKey db.events ty k ≤
      countKey ((EmailProcessor.processOneMessage now lerr db m).1).events ty k) ∧
    (jsTruthy (jsOrOpt m.internetMessageId m.id) = true →
      countKey ((EmailProcessor.processOneMessage now lerr db m).1).events "email"
        ((jsOrOpt m.internetMessageId m.id).getD "") = 1) := by
  by_cases ht : jsTruthy (jsOrOpt m.internetMessageId m.id) = true
  · rcases checkForDuplicateEmail_cases db.events ((jsOrOpt m.internetMessageId m.id).getD "")
      with ⟨hnone, hcnt⟩ | ⟨e, hsome, hcnt, _⟩
    · have h0 : countKey db.events "email" ((jsOrOpt m.internetMessageId m.id).getD "") = 0 := by
        rcases hcnt with h | h
        · exact h
        · have := hU "email" ((jsOrOpt m.internetMessageId m.id).getD "")
          omega
      rw [processOneMessage_insert now lerr db m false hl ht hnone]
      refine ⟨?_, ?_, ?_⟩
      · intro ty k
        show countKey (db.events ++ [_]) ty k ≤ 1
        rw [countKey_append, countKey_singleton]
        by_cases hb : (("email" : String) == ty &&
            ((jsOrOpt m.internetMessageId m.id).getD "") == k) = true
        · have hty : ty = "email" :=
            (eq_of_beq ((Bool.and_eq_true _ _).mp hb).1).symm
          have hk : k = (jsOrOpt m.internetMessageId m.id).getD "" :=
            (eq_of_beq ((Bool.and_eq_true _ _).mp hb).2).symm
          subst hty hk
          simp [EmailProcessor.messageEventData, h0]
        · have hrow : ((EmailProcessor.messageEventData now m
              ((jsOrOpt m.internetMessageId m.id).getD "") db.nextId).event_type == ty &&
              (EmailProcessor.messageEventData now m
              ((jsOrOpt m.internetMessageId m.id).getD "") db.nextId).external_id == k) = false := by
            simpa [EmailProcessor.messageEventData] using hb
          rw [hrow]
          simpa using hU ty k
      · intro ty k
        show countKey db.events ty k ≤ countKey (db.events ++ [_]) ty k
        rw [countKey_append]
        omega
      · intro _
        show countKey (db.events ++ [_]) "email" _ = 1
        rw [countKey_append, countKey_singleton]
        simp [EmailProcessor.messageEventData, h0]
    · rw [processOneMessage_dup now lerr db m false e hl ht hsome]
      exact ⟨hU, fun ty k => Nat.le_refl _, fun _ => hcnt⟩
  · rw [processOneMessage_skip now lerr db m (Bool.eq_false_iff.mpr ht)]
    exact ⟨hU, fun ty k => Nat.le_refl _, fun h => absurd h ht⟩

/-- A first error-free pass of the deduplicating email writer:
pair-uniqueness is preserved, no key loses rows, and every processed
message with a (truthy) resolved identifier ends with exactly one
stored row under its key. -/
theorem processMessages_pass1 (now : String) (lerr : RawMessage → Bool)
    (msgs : List RawMessage) (db : SyncDb)
    (hl : ∀ m ∈ msgs, lerr m = false) (hU : UniquePairs db.events) :
    UniquePairs ((EmailProcessor.processMessages now lerr db msgs).1).events ∧
    (∀ ty k, countKey db.events ty k ≤
      countKey ((EmailProcessor.processMessages now lerr db msgs).1).events ty k) ∧
    (∀ m ∈ msgs, jsTruthy (jsOrOpt m.internetMessageId m.id) = true →
      countKey ((EmailProcessor.processMessages now lerr db msgs).1).events "email"
        ((jsOrOpt m.internetMessageId m.id).getD "") = 1) := by
  induction msgs generalizing db with
  | nil =>
    exact ⟨hU, fun ty k => Nat.le_refl _, fun m hm => absurd hm (List.not_mem_nil m)⟩
  | cons m rest ih =>
    have hlm : lerr m = false := hl m (List.mem_cons_self m rest)
    have hstep := processOneMessage_noerr now lerr db m hlm hU
    have hrest := ih (EmailProcessor.processOneMessage now lerr db m).1
      (fun x hx => hl x (List.mem_cons_of_mem m hx)) hstep.1
    have heq : (EmailProcessor.processMessages now lerr db (m :: rest)).1 =
        (EmailProcessor.processMessages now lerr
          (EmailProcessor.processOneMessage now lerr db m).1 rest).1 := rfl
    rw [heq]
    refine ⟨hrest.1, ?_, ?_⟩
    · intro ty k
      exact le_trans (hstep.2.1 ty k) (hrest.2.1 ty k)
    · intro x hx htx
      rcases List.mem_cons.mp hx with rfl | hx'
      · have h1 := hstep.2.2 htx
        have hle := hrest.2.1 "email" ((jsOrOpt x.internetMessageId x.id).getD "")
        have hub := hrest.1 "email" ((jsOrOpt x.internetMessageId x.id).getD "")
        omega
      · exact hrest.2.2 x hx' htx

/-- A repeat error-free pass over records whose keys are all already
stored exactly once: the event table and the id counter are untouched
and every record is reported as a duplicate, none as an insert. -/
theorem processMessages_pass2 (now : String) (lerr : RawMessage → Bool)
    (msgs : List RawMessage) (db : SyncDb)
    (hl : ∀ m ∈ msgs, lerr m = false)
    (hkeys : ∀ m ∈ msgs, jsTruthy (jsOrOpt m.internetMessageId m.id) = true)
    (hcount : ∀ m ∈ msgs,
      countKey db.events "email" ((jsOrOpt m.internetMessageId m.id).getD "") = 1) :
    ((EmailProcessor.processMessages now lerr db msgs).1).events = db.events ∧
    ((EmailProcessor.processMessages now lerr db msgs).1).nextId = db.nextId ∧
    (EmailProcessor.processMessages now lerr db msgs).2 = ⟨0, msgs.length, 0⟩ := by
  induction msgs generalizing db with
  | nil => exact ⟨rfl, rfl, rfl⟩
  | cons m rest ih =>
    have hlm : lerr m = false := hl m (List.mem_cons_self m rest)
    have h1 := hcount m (List.mem_cons_self m rest)
    rcases checkForDuplicateEmail_cases db.events ((jsOrOpt m.internetMessageId m.id).getD "")
      with ⟨_, hcnt⟩ | ⟨e, hsome, _, _⟩
    · rcases hcnt with h | h <;> omega
    · have hdup := processOneMessage_dup now lerr db m false e hlm
        (hkeys m (List.mem_cons_self m rest)) hsome
      have hrest := ih ({ db with dupLog := db.dupLog ++
          [⟨"email", (jsOrOpt m.internetMessageId m.id).getD "", m.subject,
            e.rowId, "email_processor"⟩] })
        (fun x hx => hl x (List.mem_cons_of_mem m hx))
        (fun x hx => hkeys x (List.mem_cons_of_mem m hx))
        (fun x hx => hcount x (List.mem_cons_of_mem m hx))
      have heq : EmailProcessor.processMessages now lerr db (m :: rest) =
          ((EmailProcessor.processMessages now lerr
              (EmailProcessor.processOneMessage now lerr db m).1 rest).1,
            EmailProcessor.Stats.add (EmailProcessor.processOneMessage now lerr db m).2
              (EmailProcessor.processMessages now lerr
                (EmailProcessor.processOneMessage now lerr db m).1 rest).2) := rfl
      rw [heq, hdup]
      refine ⟨hrest.1, hrest.2.1, ?_⟩
      rw [hrest.2.2]
      simp [EmailProcessor.Stats.add, Nat.add_comm]

/-! ## Claim C1 -/

/-- C1: for canonical events written through the deduplicating email
writer with functioning existence lookups, the (event type, external
identifier) pair stays unique across the store; feeding the same raw
record batch (each record carrying a stable identifier) through the
writer twice yields exactly one stored event per identifier, leaves
the event table unchanged on the second pass, and reports every
second-pass record as a duplicate, not an insert. -/
theorem claim_C1_idempotent_ingestion (now : String) (msgs : List RawMessage)
    (db0 : SyncDb)
    (hids : ∀ m ∈ msgs, jsTruthy (jsOrOpt m.internetMessageId m.id) = true)
    (hU : UniquePairs db0.events) :
    UniquePairs ((EmailProcessor.processMessages now (fun _ => false) db0 msgs).1).events ∧
    (∀ m ∈ msgs,
      countKey ((EmailProcessor.processMessages now (fun _ => false) db0 msgs).1).events
        "email" ((jsOrOpt m.internetMessageId m.id).getD "") = 1) ∧
    ((EmailProcessor.processMessages now (fun _ => false)
        ((EmailProcessor.processMessages now (fun _ => false) db0 msgs).1) msgs).1).events =
      ((EmailProcessor.processMessages now (fun _ => false) db0 msgs).1).events ∧
    (EmailProcessor.processMessages now (fun _ => false)
        ((EmailProcessor.processMessages now (fun _ => false) db0 msgs).1) msgs).2 =
      ⟨0, msgs.length, 0⟩ := by
  have hp1 := processMessages_pass1 now (fun _ => false) msgs db0 (fun _ _ => rfl) hU
  have hcounts : ∀ m ∈ msgs,
      countKey ((EmailProcessor.processMessages now (fun _ => false) db0 msgs).1).events
        "email" ((jsOrOpt m.internetMessageId m.id).getD "") = 1 :=
    fun m hm => hp1.2.2 m hm (hids m hm)
  have hp2 := processMessages_pass2 now (fun _ => false) msgs
    ((EmailProcessor.processMessages now (fun _ => false) db0 msgs).1)
    (fun _ _ => rfl) hids hcounts
  exact ⟨hp1.1, hcounts, hp2.1, hp2.2.2⟩

/-- Witness for C1: a concrete two-message batch processed twice from
the empty store; the second pass reports two duplicates and no insert. -/
theorem claim_C1_witness :
    UniquePairs ([] : List StoredEvent) ∧
    (EmailProcessor.processMessages "T" (fun _ => false)
        ((EmailProcessor.processMessages "T" (fun _ => false) ⟨[], 0, []⟩
          [⟨some "A", some "X", some "s1", some "t1", none, none⟩,
           ⟨some "B", some "Y", some "s2", some "t2", none, none⟩]).1)
        [⟨some "A", some "X", some "s1", some "t1", none, none⟩,
         ⟨some "B", some "Y", some "s2", some "t2", none, none⟩]).2 = ⟨0, 2, 0⟩ := by
  have hU : UniquePairs ([] : List StoredEvent) := by
    intro ty k
    simp [countKey]
  refine ⟨hU, ?_⟩
  have h := claim_C1_idempotent_ingestion "T"
    [⟨some "A", some "X", some "s1", some "t1", none, none⟩,
     ⟨some "B", some "Y", some "s2", some "t2", none, none⟩] ⟨[], 0, []⟩
    (by decide) hU
  exact h.2.2.2

/-! ## Claim C5 -/

/-- C5: when a raw message carries the cross-client stable
`internetMessageId`, the writer keys the stored event by it and never
by the internal `id`: two messages with arbitrary (in particular,
different) internal identifiers but one shared stable identifier,
arriving at a store holding no event for that identifier, collapse to
a single stored event whose external identifier is the stable one,
with the second message reported as a duplicate. -/
theorem claim_C5_stable_identifier (now imid : String) (m1 m2 : RawMessage)
    (db0 : SyncDb)
    (h1 : m1.internetMessageId = some imid) (h2 : m2.internetMessageId = some imid)
    (hne : imid ≠ "")
    (h0 : countKey db0.events "email" imid = 0) :
    countKey ((EmailProcessor.processMessages now (fun _ => false) db0 [m1, m2]).1).events
      "email" imid = 1 ∧
    (EmailProcessor.processMessages now (fun _ => false) db0 [m1, m2]).2 = ⟨1, 1, 0⟩ ∧
    (∀ e ∈ ((EmailProcessor.processMessages now (fun _ => false) db0 [m1, m2]).1).events,
      e ∉ db0.events → e.external_id = imid) := by
  have hb : (imid != "") = true := bne_iff_ne.mpr hne
  have hk1 : jsOrOpt m1.internetMessageId m1.id = some imid := by
    simp [jsOrOpt, jsTruthy, h1, hb]
  have hk2 : jsOrOpt m2.internetMessageId m2.id = some imid := by
    simp [jsOrOpt, jsTruthy, h2, hb]
  have ht1 : jsTruthy (jsOrOpt m1.internetMessageId m1.id) = true := by
    rw [hk1]
    simpa [jsTruthy] using hb
  have ht2 : jsTruthy (jsOrOpt m2.internetMessageId m2.id) = true := by
    rw [hk2]
    simpa [jsTruthy] using hb
  have hg1 : (jsOrOpt m1.internetMessageId m1.id).getD "" = imid := by
    rw [hk1]
    rfl
  have hg2 : (jsOrOpt m2.internetMessageId m2.id).getD "" = imid := by
    rw [hk2]
    rfl
  -- first message: lookup finds nothing, insert
  have hchk1 : EmailProcessor.checkForDuplicateEmail db0.events false
      ((jsOrOpt m1.internetMessageId m1.id).getD "") = none := by
    rw [hg1]
    rcases checkForDuplicateEmail_cases db0.events imid with ⟨hn, _⟩ | ⟨e, _, hc, _⟩
    · exact hn
    · omega
  have hstep1 := processOneMessage_insert now (fun _ => false) db0 m1 false rfl ht1 hchk1
  -- the store after the first message
  have hrowkey : countKey (db0.events ++ [EmailProcessor.messageEventData now m1
      ((jsOrOpt m1.internetMessageId m1.id).getD "") db0.nextId]) "email" imid = 1 := by
    rw [countKey_append, countKey_singleton, hg1]
    simp [EmailProcessor.messageEventData, h0]
  -- second message: lookup finds the freshly inserted row
  have hchk2 : ∃ e, EmailProcessor.checkForDuplicateEmail
      (db0.events ++ [EmailProcessor.messageEventData now m1
        ((jsOrOpt m1.internetMessageId m1.id).getD "") db0.nextId]) false
      ((jsOrOpt m2.internetMessageId m2.id).getD "") = some e := by
    rw [hg2]
    rcases checkForDuplicateEmail_cases (db0.events ++ [EmailProcessor.messageEventData now m1
        ((jsOrOpt m1.internetMessageId m1.id).getD "") db0.nextId]) imid
      with ⟨_, hc⟩ | ⟨e, hs, _, _⟩
    · omega
    · exact ⟨e, hs⟩
  obtain ⟨e2, hchk2⟩ := hchk2
  -- unfold the two-element batch
  have heq1 : EmailProcessor.processMessages now (fun _ => false) db0 [m1, m2] =
      ((EmailProcessor.processMessages now (fun _ => false)
          (EmailProcessor.processOneMessage now (fun _ => false) db0 m1).1 [m2]).1,
        EmailProcessor.Stats.add
          (EmailProcessor.processOneMessage now (fun _ => false) db0 m1).2
          (EmailProcessor.processMessages now (fun _ => false)
            (EmailProcessor.processOneMessage now (fun _ => false) db0 m1).1 [m2]).2) := rfl
  have hdb1 : (EmailProcessor.processOneMessage now (fun _ => false) db0 m1).1 =
      { db0 with
          events := db0.events ++ [EmailProcessor.messageEventData now m1
            ((jsOrOpt m1.internetMessageId m1.id).getD "") db0.nextId]
          nextId := db0.nextId + 1 } := by
    rw [hstep1]
  have hstep2 := processOneMessage_dup now (fun _ => false)
    ({ db0 with
        events := db0.events ++ [EmailProcessor.messageEventData now m1
          ((jsOrOpt m1.internetMessageId m1.id).getD "") db0.nextId]
        nextId := db0.nextId + 1 }) m2 false e2 rfl ht2 hchk2
  have heq2 : EmailProcessor.processMessages now (fun _ => false)
      ({ db0 with
          events := db0.events ++ [EmailProcessor.messageEventData now m1
            ((jsOrOpt m1.internetMessageId m1.id).getD "") db0.nextId]
          nextId := db0.nextId + 1 }) [m2] =
      ((EmailProcessor.processOneMessage now (fun _ => false)
          ({ db0 with
              events := db0.events ++ [EmailProcessor.messageEventData now m1
                ((jsOrOpt m1.internetMessageId m1.id).getD "") db0.nextId]
              nextId := db0.nextId + 1 }) m2).1,
        EmailProcessor.Stats.add
          (EmailProcessor.processOneMessage now (fun _ => false)
            ({ db0 with
                events := db0.events ++ [EmailProcessor.messageEventData now m1
                  ((jsOrOpt m1.internetMessageId m1.id).getD "") db0.nextId]
                nextId := db0.nextId + 1 }) m2).2 ⟨0, 0, 0⟩) := rfl
  rw [heq1, hdb1, heq2, hstep1, hstep2]
  refine ⟨?_, ?_, ?_⟩
  · exact hrowkey
  · rfl
  · intro e he hnot
    rcases List.mem_append.mp he with h | h
    · exact absurd h hnot
    · rcases List.mem_singleton.mp h with rfl
      rw [← hg1]
      rfl

/-- Witness for C5: messages with internal ids `A` and `B` sharing the
stable identifier `X`, processed from the empty store. -/
theorem claim_C5_witness :
    countKey ([] : List StoredEvent) "email" "X" = 0 ∧
    countKey ((EmailProcessor.processMessages "T" (fun _ => false) ⟨[], 0, []⟩
        [⟨some "A", some "X", some "s1", some "t1", none, none⟩,
         ⟨some "B", some "X", some "s2", some "t2", none, none⟩]).1).events
      "email" "X" = 1 ∧
    (EmailProcessor.processMessages "T" (fun _ => false) ⟨[], 0, []⟩
        [⟨some "A", some "X", some "s1", some "t1", none, none⟩,
         ⟨some "B", some "X", some "s2", some "t2", none, none⟩]).2 = ⟨1, 1, 0⟩ := by
  have h := claim_C5_stable_identifier "T" "X"
    ⟨some "A", some "X", some "s1", some "t1", none, none⟩
    ⟨some "B", some "X", some "s2", some "t2", none, none⟩
    ⟨[], 0, []⟩ rfl rfl (by decide) (by decide)
  exact ⟨by decide, h.1, h.2.1⟩

/-! ## Claim C10 -/

/-- C10: when the deduplicating writer's existence lookup itself fails,
the record is treated as not-a-duplicate and inserted (fail-open): the
batch completes with the record counted as an insert — never as a
failure — and, when the identifier was already stored, the store ends
up holding one more event under that identifier than before, i.e. a
duplicate. The second conjunct shows the same fail-open insert through
the calendar `isDuplicate` lookup at a concrete store already holding
the meeting's `iCalUId`. -/
theorem claim_C10_failopen_lookup (now imid : String) (m : RawMessage) (db0 : SyncDb)
    (hmid : jsOrOpt m.internetMessageId m.id = some imid) (hne : imid ≠ "")
    (hdup : 1 ≤ countKey db0.events "email" imid) :
    ((EmailProcessor.processMessages now (fun _ => true) db0 [m]).2 = ⟨1, 0, 0⟩ ∧
      countKey ((EmailProcessor.processMessages now (fun _ => true) db0 [m]).1).events
        "email" imid = countKey db0.events "email" imid + 1 ∧
      2 ≤ countKey ((EmailProcessor.processMessages now (fun _ => true) db0 [m]).1).events
        "email" imid) ∧
    (((CalendarProcessorICal.processEvents "T" (fun _ => true)
        ⟨[⟨0, "u", "meeting", "microsoft_graph", "gOLD", "S", "", "T0", some "U"⟩], 1, []⟩
        [⟨"gNEW", some "U", some "S2", some "T1", none, none⟩]).2 =
          (⟨1, 0, 0⟩ : CalendarProcessorICal.Stats)) ∧
      countUid ((CalendarProcessorICal.processEvents "T" (fun _ => true)
        ⟨[⟨0, "u", "meeting", "microsoft_graph", "gOLD", "S", "", "T0", some "U"⟩], 1, []⟩
        [⟨"gNEW", some "U", some "S2", some "T1", none, none⟩]).1).events "U" = 2) := by
  have hb : (imid != "") = true := bne_iff_ne.mpr hne
  have ht : jsTruthy (jsOrOpt m.internetMessageId m.id) = true := by
    rw [hmid]
    simpa [jsTruthy] using hb
  have hg : (jsOrOpt m.internetMessageId m.id).getD "" = imid := by
    rw [hmid]
    rfl
  have hchk : EmailProcessor.checkForDuplicateEmail db0.events true
      ((jsOrOpt m.internetMessageId m.id).getD "") = none :=
    checkForDuplicateEmail_err db0.events _
  have hstep := processOneMessage_insert now (fun _ => true) db0 m true rfl ht hchk
  have heq : EmailProcessor.processMessages now (fun _ => true) db0 [m] =
      ((EmailProcessor.processOneMessage now (fun _ => true) db0 m).1,
        EmailProcessor.Stats.add
          (EmailProcessor.processOneMessage now (fun _ => true) db0 m).2 ⟨0, 0, 0⟩) := rfl
  rw [heq, hstep]
  refine ⟨⟨rfl, ?_, ?_⟩, by decide, by decide⟩
  · show countKey (db0.events ++ [_]) "email" imid = _
    rw [countKey_append, countKey_singleton, hg]
    simp [EmailProcessor.messageEventData]
  · show 2 ≤ countKey (db0.events ++ [_]) "email" imid
    rw [countKey_append, countKey_singleton, hg]
    simp only [EmailProcessor.messageEventData]
    simp
    omega

/-- Witness for C10: a message whose identifier `X` is already stored
once, processed while the duplicate lookup errors, ends stored twice. -/
theorem claim_C10_witness :
    (1 ≤ countKey [⟨0, "u", "email", "microsoft_graph", "X", "s", "", "T0", none⟩]
        "email" "X") ∧
    countKey ((EmailProcessor.processMessages "T" (fun _ => true)
        ⟨[⟨0, "u", "email", "microsoft_graph", "X", "s", "", "T0", none⟩], 1, []⟩
        [⟨some "A", some "X", some "s1", some "t1", none, none⟩]).1).events
      "email" "X" = 2 := by
  have h := claim_C10_failopen_lookup "T" "X"
    ⟨some "A", some "X", some "s1", some "t1", none, none⟩
    ⟨[⟨0, "u", "email", "microsoft_graph", "X", "s", "", "T0", none⟩], 1, []⟩
    rfl (by decide) (by decide)
  refine ⟨by decide, ?_⟩
  have h2 := h.1.2.1
  simpa using h2

/-! ## Claim C2 -/

/-- C2 (divergence): the run-ledger completion operation marks the run
`success` and sets the finish timestamp, but it does not record the
processed/created/updated counts it is handed — the count columns of
the run row remain null, where the claim requires them to hold the
supplied statistics. -/
theorem claim_C2_counts_not_recorded :
    SupabaseService.completeIngestionRun
        [⟨1, "conn-1", .running, "T0", none, none, none, none, none⟩] 1 "T1" ⟨12, 3, 0⟩ =
      [⟨1, "conn-1", .success, "T0", some "T1", none, none, none, none⟩] ∧
    (SupabaseService.completeIngestionRun
        [⟨1, "conn-1", .running, "T0", none, none, none, none, none⟩] 1 "T1"
        ⟨12, 3, 0⟩).map SupabaseService.RunRow.items_created ≠ [some 3] := by
  constructor
  · rfl
  · decide

/-! ## Claim C4 -/

/-- C4 (counterexample): re-processing a calendar record whose external
identifier `g1` is already stored does not leave the stored row's
fields unchanged — `upsertEvent` updates the row in place, and the
stored subject becomes the re-canonicalized one. -/
theorem claim_C4_counterexample :
    ((CalendarProcessor.processEvents "NOW"
        ⟨[⟨0, "3ccb8364-da19-782e-b3fa-6ee4ed40820b", "meeting", "microsoft_graph",
            "g1", "Old subject", "", "T0", some "U"⟩], 1, []⟩
        [⟨"g1", some "U", some "New subject", some "T0", none, none⟩]).1).events.map
      StoredEvent.subject = ["New subject"] ∧
    ((CalendarProcessor.processEvents "NOW"
        ⟨[⟨0, "3ccb8364-da19-782e-b3fa-6ee4ed40820b", "meeting", "microsoft_graph",
            "g1", "Old subject", "", "T0", some "U"⟩], 1, []⟩
        [⟨"g1", some "U", some "New subject", some "T0", none, none⟩]).1).events.length = 1 ∧
    ("New subject" : String) ≠ "Old subject" := by
  refine ⟨by decide, by decide, by decide⟩

/-- C4 (amended): the writer creates a row once on first sight of an
external identifier; on re-sight it adds no second row and preserves
the existing row's identity (its row id, which it returns), but it
updates that row in place, overwriting its columns with the newly
canonicalized values, rather than leaving them unchanged. -/
theorem claim_C4_upsert_in_place (events : List StoredEvent) (nextId : Nat)
    (ev : SupabaseService.EventData) (r : StoredEvent) :
    (events.filter (fun e => e.external_id == ev.external_id) = [] →
      SupabaseService.upsertEvent events nextId ev =
        (events ++ [ev.toStored nextId], nextId + 1, nextId)) ∧
    (events.filter (fun e => e.external_id == ev.external_id) = [r] →
      SupabaseService.upsertEvent events nextId ev =
        (events.map (fun e => if e.rowId == r.rowId then ev.applyTo e else e),
          nextId, r.rowId) ∧
      (SupabaseService.upsertEvent events nextId ev).1.length = events.length ∧
      (∀ e ∈ (SupabaseService.upsertEvent events nextId ev).1,
        (e.rowId == r.rowId) = false → e ∈ events)) := by
  constructor
  · intro hf
    unfold SupabaseService.upsertEvent
    rw [hf]
    rfl
  · intro hf
    have hup : SupabaseService.upsertEvent events nextId ev =
        (events.map (fun e => if e.rowId == r.rowId then ev.applyTo e else e),
          nextId, r.rowId) := by
      unfold SupabaseService.upsertEvent
      rw [hf]
      rfl
    refine ⟨hup, ?_, ?_⟩
    · rw [hup]
      exact List.length_map events _
    · intro e he hne
      rw [hup] at he
      rcases List.mem_map.mp he with ⟨x, hx, hxe⟩
      by_cases hb : (x.rowId == r.rowId) = true
      · rw [if_pos hb] at hxe
        subst hxe
        exact absurd hb (by simpa [SupabaseService.EventData.applyTo] using hne)
      · rw [if_neg hb] at hxe
        subst hxe
        exact hx

/-- Witness for C4 (amended): a concrete store where the external id
`g1` is already present; the upsert keeps one row, returns the stored
row id `5`, and overwrites the subject. -/
theorem claim_C4_witness :
    ((([⟨5, "u", "meeting", "microsoft_graph", "g1", "Old", "b", "T0", some "U"⟩] :
        List StoredEvent).filter (fun e => e.external_id ==
          (⟨"u2", "meeting", "microsoft_graph", "g1", "New", "b2", "T1", some "U"⟩ :
            SupabaseService.EventData).external_id)) =
      [⟨5, "u", "meeting", "microsoft_graph", "g1", "Old", "b", "T0", some "U"⟩]) ∧
    SupabaseService.upsertEvent
        [⟨5, "u", "meeting", "microsoft_graph", "g1", "Old", "b", "T0", some "U"⟩] 9
        ⟨"u2", "meeting", "microsoft_graph", "g1", "New", "b2", "T1", some "U"⟩ =
      ([⟨5, "u2", "meeting", "microsoft_graph", "g1", "New", "b2", "T1", some "U"⟩], 9, 5) := by
  have h := (claim_C4_upsert_in_place
    [⟨5, "u", "meeting", "microsoft_graph", "g1", "Old", "b", "T0", some "U"⟩] 9
    ⟨"u2", "meeting", "microsoft_graph", "g1", "New", "b2", "T1", some "U"⟩
    ⟨5, "u", "meeting", "microsoft_graph", "g1", "Old", "b", "T0", some "U"⟩).2
    (by decide)
  refine ⟨by decide, ?_⟩
  rw [h.1]
  decide

/-! ## Claim C6 -/

/-- C6 (divergence): a meeting record lacking the recurrence-stable
`iCalUId` is silently stored by the calendar processor the
orchestrators use (and by its `iCalUId`-checking successor), with no
flag of any kind — only the newest, unwired variant flags the record
(a warning) and refuses to store it. -/
theorem claim_C6_missing_uid_not_flagged :
    ((CalendarProcessor.processEvents "NOW" ⟨[], 0, []⟩
        [⟨"g1", none, some "Standup", some "T1", none, none⟩]).2 =
      (⟨1, 0⟩ : CalendarProcessor.Stats)) ∧
    ((CalendarProcessor.processEvents "NOW" ⟨[], 0, []⟩
        [⟨"g1", none, some "Standup", some "T1", none, none⟩]).1).events.length = 1 ∧
    ((CalendarProcessorICal.processEvents "NOW" (fun _ => false) ⟨[], 0, []⟩
        [⟨"g1", none, some "Standup", some "T1", none, none⟩]).2 =
      (⟨1, 0, 0⟩ : CalendarProcessorICal.Stats)) ∧
    ((CalendarProcessorV2.processCalendarEvents "NOW" (fun _ => false) ⟨[], 0, []⟩
        [⟨"g1", none, some "Standup", some "T1", none, none⟩]).2.1 =
      (⟨0, 0, 1⟩ : CalendarProcessorV2.Stats)) ∧
    ((CalendarProcessorV2.processCalendarEvents "NOW" (fun _ => false) ⟨[], 0, []⟩
        [⟨"g1", none, some "Standup", some "T1", none, none⟩]).1).events = [] ∧
    (CalendarProcessorV2.processCalendarEvents "NOW" (fun _ => false) ⟨[], 0, []⟩
        [⟨"g1", none, some "Standup", some "T1", none, none⟩]).2.2 = [some "Standup"] := by
  refine ⟨by decide, by decide, by decide, by decide, by decide, by decide⟩

/-! ## Claim C3 -/

/-- Updating the run rows by id, when the target id is fresh for every
pre-existing row and is the id of the appended row, only rewrites the
appended row. -/
theorem update_append_fresh (runs : List SupabaseService.RunRow) (runId : Nat)
    (newRow : SupabaseService.RunRow)
    (g : SupabaseService.RunRow → SupabaseService.RunRow)
    (hFresh : ∀ r ∈ runs, r.id ≠ runId) (hnew : newRow.id = runId) :
    (runs ++ [newRow]).map (fun r => if r.id == runId then g r else r) =
      runs ++ [g newRow] := by
  have hb : (newRow.id == runId) = true := by simpa using hnew
  have h1 : runs.map (fun r => if r.id == runId then g r else r) = runs := by
    conv_rhs => rw [← List.map_id runs]
    apply List.map_congr_left
    intro x hx
    have hne : (x.id == runId) = false := by
      simpa using hFresh x hx
    rw [hne]
    rfl
  have h2 : (if newRow.id == runId then g newRow else newRow) = g newRow := if_pos hb
  simp only [List.map_append, h1, List.map_cons, List.map_nil, h2]

/-- C3: for every orchestration in which begin succeeds (the account
email is configured and the `running` row is inserted), the run row is
finalized before the invocation ends regardless of which later step
throws: it ends `success` or `failed` with its finish timestamp set,
it is never left `running`, and it ends `success` precisely when no
step after begin threw. -/
theorem claim_C3_run_finalized (fails : SyncStep → Option String)
    (runs : List SupabaseService.RunRow) (runId : Nat) (connectionId now : String)
    (stats : SupabaseService.RunStats)
    (hFresh : ∀ r ∈ runs, r.id ≠ runId) :
    (∃ r ∈ performSync true true fails runs runId connectionId now stats,
      r.id = runId) ∧
    (∀ r ∈ performSync true true fails runs runId connectionId now stats,
      r.id = runId →
        (r.status = .success ∨ r.status = .failed) ∧ r.status ≠ .running ∧
        r.finished_at = some now ∧
        (r.status = .success ↔ firstFailure fails syncSteps = none)) := by
  cases hff : firstFailure fails syncSteps with
  | none =>
    have hps : performSync true true fails runs runId connectionId now stats =
        runs ++ [⟨runId, connectionId, .success, now, some now, none, none, none, none⟩] := by
      simp only [performSync, Bool.not_true, Bool.false_eq_true, if_false, hff]
      exact update_append_fresh runs runId _ _ hFresh rfl
    rw [hps]
    constructor
    · exact ⟨_, List.mem_append_right runs (List.mem_singleton_self _), rfl⟩
    · intro r hr hid
      rcases List.mem_append.mp hr with h | h
      · exact absurd hid (hFresh r h)
      · rcases List.mem_singleton.mp h with rfl
        exact ⟨Or.inl rfl, fun h => SupabaseService.RunStatus.noConfusion h, rfl,
          ⟨fun _ => rfl, fun _ => rfl⟩⟩
  | some msg =>
    have hps : performSync true true fails runs runId connectionId now stats =
        runs ++ [⟨runId, connectionId, .failed, now, some now, some msg,
          none, none, none⟩] := by
      simp only [performSync, Bool.not_true, Bool.false_eq_true, if_false, hff]
      exact update_append_fresh runs runId _ _ hFresh rfl
    rw [hps]
    constructor
    · exact ⟨_, List.mem_append_right runs (List.mem_singleton_self _), rfl⟩
    · intro r hr hid
      rcases List.mem_append.mp hr with h | h
      · exact absurd hid (hFresh r h)
      · rcases List.mem_singleton.mp h with rfl
        refine ⟨Or.inr rfl, fun h => SupabaseService.RunStatus.noConfusion h, rfl, ?_⟩
        constructor
        · intro h
          exact SupabaseService.RunStatus.noConfusion h
        · intro h
          exact Option.noConfusion h

/-- Witness for C3: a failure injected at the calendar fetch, starting
from an empty ledger; the run row exists and is finalized, not left
`running`. -/
theorem claim_C3_witness :
    (∀ r ∈ ([] : List SupabaseService.RunRow), r.id ≠ 1) ∧
    (∃ r ∈ performSync true true
        (fun s => if s = SyncStep.fetchCalendar then some "boom" else none)
        [] 1 "conn-1" "T0" ⟨0, 0, 0⟩, r.id = 1) ∧
    (∀ r ∈ performSync true true
        (fun s => if s = SyncStep.fetchCalendar then some "boom" else none)
        [] 1 "conn-1" "T0" ⟨0, 0, 0⟩, r.id = 1 →
      (r.status = .success ∨ r.status = .failed) ∧ r.status ≠ .running ∧
      r.finished_at = some "T0") := by
  have h := claim_C3_run_finalized
    (fun s => if s = SyncStep.fetchCalendar then some "boom" else none)
    [] 1 "conn-1" "T0" ⟨0, 0, 0⟩ (fun r hr => absurd hr (List.not_mem_nil r))
  refine ⟨fun r hr => absurd hr (List.not_mem_nil r), h.1, ?_⟩
  intro r hr hid
  have hc := h.2 r hr hid
  exact ⟨hc.1, hc.2.1, hc.2.2.1⟩

/-! ## Pagination loop lemmas -/

/-- What a successful run of the pagination loop produces: the final
trace extends the incoming one by at most `fuel` fetched requests, and
the accumulated batch is the incoming accumulator followed by the
concatenation of all newly fetched pages' records, in fetch order. -/
theorem fetchPagesAux_ok_spec {α : Type}
    (provider : MicrosoftService.GraphRequest →
      Except MicrosoftService.GraphError (MicrosoftService.GraphPage α))
    (maxPages : Nat) :
    ∀ (fuel : Nat) (req : MicrosoftService.GraphRequest) (pageCount : Nat)
      (acc : List α) (dl : Option String)
      (trace : List MicrosoftService.GraphRequest)
      (msgs : List α) (dlOut : Option String)
      (traceOut : List MicrosoftService.GraphRequest),
      MicrosoftService.fetchPagesAux provider maxPages fuel req pageCount acc dl trace =
        .ok (msgs, dlOut, traceOut) →
      ∃ ext, traceOut = trace ++ ext ∧ ext.length ≤ fuel ∧
        msgs = acc ++ (ext.map (fun r =>
          match provider r with
          | .ok p => p.value
          | .error _ => [])).flatten := by
  intro fuel
  induction fuel with
  | zero =>
    intro req pageCount acc dl trace msgs dlOut traceOut h
    unfold MicrosoftService.fetchPagesAux at h
    injection h with h
    injection h with h1 h
    injection h with h2 h3
    exact ⟨[], by simp [h3], by simp, by simp [h1]⟩
  | succ fuel ih =>
    intro req pageCount acc dl trace msgs dlOut traceOut h
    unfold MicrosoftService.fetchPagesAux at h
    by_cases hpc : pageCount < maxPages
    · rw [if_pos hpc] at h
      cases hp : provider req with
      | error e =>
        rw [hp] at h
        exact Except.noConfusion h
      | ok page =>
        rw [hp] at h
        simp only [] at h
        have haccv : (if page.value.isEmpty then acc else acc ++ page.value) =
            acc ++ page.value := by
          by_cases hv : page.value.isEmpty
          · rw [if_pos hv, List.isEmpty_iff.mp hv]
            simp
          · rw [if_neg hv]
        by_cases hnl : jsTruthy page.nextLink = true
        · rw [if_pos hnl] at h
          obtain ⟨ext, htr, hlen, hacc⟩ := ih _ _ _ _ _ _ _ _ h
          refine ⟨req :: ext, ?_, ?_, ?_⟩
          · rw [htr]
            simp
          · simpa using Nat.succ_le_succ hlen
          · rw [hacc, haccv]
            simp [hp, List.append_assoc]
        · rw [if_neg hnl] at h
          injection h with h
          injection h with h1 h
          injection h with h2 h3
          refine ⟨[req], by simp [h3], by simp, ?_⟩
          rw [← h1, haccv]
          simp [hp]
    · rw [if_neg hpc] at h
      injection h with h
      injection h with h1 h
      injection h with h2 h3
      exact ⟨[], by simp [h3], by simp, by simp [h1]⟩

/-- The continuation token surfaced by a successful run of the
pagination loop is exactly the one `lastPageDelta` reads off the final
fetched page, provided the incoming accumulator state is the loop's
initial one (`dl = none`) and every page already recorded in the
incoming trace carried a next-page link (the invariant the loop
maintains). -/
theorem fetchPagesAux_ok_delta {α : Type}
    (provider : MicrosoftService.GraphRequest →
      Except MicrosoftService.GraphError (MicrosoftService.GraphPage α))
    (maxPages : Nat) :
    ∀ (fuel : Nat) (req : MicrosoftService.GraphRequest) (pageCount : Nat)
      (acc : List α) (trace : List MicrosoftService.GraphRequest)
      (msgs : List α) (dlOut : Option String)
      (traceOut : List MicrosoftService.GraphRequest),
      (∀ r, trace.getLast? = some r →
        ∃ p, provider r = .ok p ∧ jsTruthy p.nextLink = true) →
      MicrosoftService.fetchPagesAux provider maxPages fuel req pageCount acc none trace =
        .ok (msgs, dlOut, traceOut) →
      dlOut = MicrosoftService.lastPageDelta provider traceOut := by
  intro fuel
  induction fuel with
  | zero =>
    intro req pageCount acc trace msgs dlOut traceOut hinv h
    unfold MicrosoftService.fetchPagesAux at h
    injection h with h
    injection h with h1 h
    injection h with h2 h3
    rw [← h2, ← h3]
    unfold MicrosoftService.lastPageDelta
    cases hl : trace.getLast? with
    | none => rfl
    | some r =>
      obtain ⟨p, hp, hnl⟩ := hinv r hl
      simp [hp, hnl]
  | succ fuel ih =>
    intro req pageCount acc trace msgs dlOut traceOut hinv h
    unfold MicrosoftService.fetchPagesAux at h
    by_cases hpc : pageCount < maxPages
    · rw [if_pos hpc] at h
      cases hp : provider req with
      | error e =>
        rw [hp] at h
        exact Except.noConfusion h
      | ok page =>
        rw [hp] at h
        simp only [] at h
        by_cases hnl : jsTruthy page.nextLink = true
        · rw [if_pos hnl] at h
          refine ih _ _ _ _ _ _ _ ?_ h
          intro r hl
          rw [List.getLast?_concat] at hl
          injection hl with hl
          rw [← hl]
          exact ⟨page, hp, hnl⟩
        · rw [if_neg hnl] at h
          injection h with h
          injection h with h1 h
          injection h with h2 h3
          rw [← h2, ← h3]
          unfold MicrosoftService.lastPageDelta
          rw [List.getLast?_concat]
          simp [hp, hnl]
    · rw [if_neg hpc] at h
      injection h with h
      injection h with h1 h
      injection h with h2 h3
      rw [← h2, ← h3]
      unfold MicrosoftService.lastPageDelta
      cases hl : trace.getLast? with
      | none => rfl
      | some r =>
        obtain ⟨p, hp, hnl⟩ := hinv r hl
        simp [hp, hnl]

/-- Against a provider that answers every request with a page carrying
a next-page link, the loop still terminates: it runs its page budget
to exhaustion, fetching exactly `fuel` further pages. -/
theorem fetchPagesAux_runaway {α : Type}
    (provider : MicrosoftService.GraphRequest →
      Except MicrosoftService.GraphError (MicrosoftService.GraphPage α))
    (maxPages : Nat)
    (hnext : ∀ r p, provider r = .ok p → jsTruthy p.nextLink = true) :
    ∀ (fuel : Nat) (req : MicrosoftService.GraphRequest) (pageCount : Nat)
      (acc : List α) (dl : Option String)
      (trace : List MicrosoftService.GraphRequest)
      (msgs : List α) (dlOut : Option String)
      (traceOut : List MicrosoftService.GraphRequest),
      fuel + pageCount = maxPages →
      MicrosoftService.fetchPagesAux provider maxPages fuel req pageCount acc dl trace =
        .ok (msgs, dlOut, traceOut) →
      traceOut.length = trace.length + fuel := by
  intro fuel
  induction fuel with
  | zero =>
    intro req pageCount acc dl trace msgs dlOut traceOut hsum h
    unfold MicrosoftService.fetchPagesAux at h
    injection h with h
    injection h with h1 h
    injection h with h2 h3
    rw [← h3]
    simp
  | succ fuel ih =>
    intro req pageCount acc dl trace msgs dlOut traceOut hsum h
    have hpc : pageCount < maxPages := by omega
    unfold MicrosoftService.fetchPagesAux at h
    rw [if_pos hpc] at h
    cases hp : provider req with
    | error e =>
      rw [hp] at h
      exact Except.noConfusion h
    | ok page =>
      rw [hp] at h
      simp only [] at h
      rw [if_pos (hnext req page hp)] at h
      have := ih _ _ _ _ _ _ _ _ (by omega) h
      rw [this]
      simp
      omega

/-- A successful run of the loop from its initial state fetches its
starting request first. -/
theorem fetchPagesAux_ok_head {α : Type}
    (provider : MicrosoftService.GraphRequest →
      Except MicrosoftService.GraphError (MicrosoftService.GraphPage α))
    (maxPages fuel : Nat) (req : MicrosoftService.GraphRequest)
    (msgs : List α) (dlOut : Option String)
    (traceOut : List MicrosoftService.GraphRequest)
    (hm : 0 < maxPages) (hf : 0 < fuel)
    (h : MicrosoftService.fetchPagesAux provider maxPages fuel req 0 [] none [] =
      .ok (msgs, dlOut, traceOut)) :
    traceOut.head? = some req := by
  cases fuel with
  | zero => omega
  | succ fuel =>
    unfold MicrosoftService.fetchPagesAux at h
    rw [if_pos hm] at h
    cases hp : provider req with
    | error e =>
      rw [hp] at h
      exact Except.noConfusion h
    | ok page =>
      rw [hp] at h
      simp only [] at h
      by_cases hnl : jsTruthy page.nextLink = true
      · rw [if_pos hnl] at h
        obtain ⟨ext, htr, _, _⟩ := fetchPagesAux_ok_spec provider maxPages fuel _ _ _ _ _ _ _ _ h
        rw [htr]
        simp
      · rw [if_neg hnl] at h
        injection h with h
        injection h with h1 h
        injection h with h2 h3
        rw [← h3]
        simp

/-! ## Claim C7 -/

/-- C7: any successful pagination run visits at most the hard cap of
20 pages, returns the concatenation of all visited pages' records as
the one in-memory batch handed to the caller, and — the loop being a
total function on its page budget — terminates even against a provider
that answers every request with a further next-page link, in which
case it stops after exactly 20 pages. -/
theorem claim_C7_pagination_capped {α : Type}
    (provider : MicrosoftService.GraphRequest →
      Except MicrosoftService.GraphError (MicrosoftService.GraphPage α))
    (req0 : MicrosoftService.GraphRequest) (msgs : List α) (dlOut : Option String)
    (trace : List MicrosoftService.GraphRequest)
    (h : MicrosoftService.fetchPagesAux provider 20 20 req0 0 [] none [] =
      .ok (msgs, dlOut, trace)) :
    trace.length ≤ 20 ∧
    msgs = (trace.map (fun r =>
      match provider r with
      | .ok p => p.value
      | .error _ => [])).flatten ∧
    ((∀ r p, provider r = .ok p → jsTruthy p.nextLink = true) →
      trace.length = 20) := by
  obtain ⟨ext, htr, hlen, hacc⟩ :=
    fetchPagesAux_ok_spec provider 20 20 req0 0 [] none [] msgs dlOut trace h
  refine ⟨?_, ?_, ?_⟩
  · rw [htr]
    simpa using hlen
  · rw [hacc, htr]
    simp
  · intro hnext
    have := fetchPagesAux_runaway provider 20 hnext 20 req0 0 [] none []
      msgs dlOut trace (by omega) h
    simpa using this

/-- Witness for C7: a provider that always returns one record and a
next-page link; the loop stops at exactly 20 pages with 20 records. -/
theorem claim_C7_witness :
    MicrosoftService.fetchPagesAux (α := RawMessage)
        (fun _ => .ok ⟨[⟨none, none, none, none, none, none⟩], some "n", none⟩)
        20 20 (.link "s") 0 [] none [] =
      .ok (List.replicate 20 ⟨none, none, none, none, none, none⟩, none,
        .link "s" :: List.replicate 19 (.link "n")) ∧
    (MicrosoftService.GraphRequest.link "s" ::
      List.replicate 19 (MicrosoftService.GraphRequest.link "n")).length ≤ 20 ∧
    (MicrosoftService.GraphRequest.link "s" ::
      List.replicate 19 (MicrosoftService.GraphRequest.link "n")).length = 20 := by
  have h : MicrosoftService.fetchPagesAux (α := RawMessage)
      (fun _ => .ok ⟨[⟨none, none, none, none, none, none⟩], some "n", none⟩)
      20 20 (.link "s") 0 [] none [] =
      .ok (List.replicate 20 ⟨none, none, none, none, none, none⟩, none,
        .link "s" :: List.replicate 19 (.link "n")) := by rfl
  have hc := claim_C7_pagination_capped _ _ _ _ _ h
  refine ⟨h, hc.1, hc.2.2 ?_⟩
  intro r p hp
  injection hp with hp
  rw [← hp]
  rfl

/-! ## Claim C8 -/

/-- C8: when a fetch fails, the stored cursor row for the (account,
resource type) is deleted exactly when the error is identified as an
invalid/stale continuation token (status 410 or a message matching the
`delta` pattern); any other fetch error leaves the stored cursor rows
unchanged. The error itself is the fetch's result either way, so the
current run still reports failure. -/
theorem claim_C8_invalid_cursor_reset
    (provider : MicrosoftService.GraphRequest →
      Except MicrosoftService.GraphError (MicrosoftService.GraphPage RawMessage))
    (providerC : MicrosoftService.GraphRequest →
      Except MicrosoftService.GraphError (MicrosoftService.GraphPage RawGraphEvent))
    (rows rowsC : List MicrosoftService.SyncRow) (acct : String)
    (daysBack now : Int) (nowIso : String) :
    (∀ e, (MicrosoftService.fetchMessages provider rows acct daysBack now nowIso).2 =
        .error e →
      (MicrosoftService.fetchMessages provider rows acct daysBack now nowIso).1 =
        (if MicrosoftService.isInvalidCursorError e then
          MicrosoftService.clearDeltaLink rows acct "messages" else rows)) ∧
    (∀ e, (MicrosoftService.fetchCalendarEvents providerC rowsC acct daysBack now nowIso).2 =
        .error e →
      (MicrosoftService.fetchCalendarEvents providerC rowsC acct daysBack now nowIso).1 =
        (if MicrosoftService.isInvalidCursorError e then
          MicrosoftService.clearDeltaLink rowsC acct "calendar" else rowsC)) := by
  constructor
  · intro e he
    cases hfp : MicrosoftService.fetchPagesAux provider 20 20
        (match MicrosoftService.getDeltaLink rows acct "messages" with
          | some dl => MicrosoftService.GraphRequest.link dl
          | none => MicrosoftService.GraphRequest.initialMessages (now - daysBack))
        0 [] none [] with
    | ok res =>
      obtain ⟨msgs, dl, trace⟩ := res
      simp only [MicrosoftService.fetchMessages, hfp] at he
      exact Except.noConfusion he
    | error err =>
      simp only [MicrosoftService.fetchMessages, hfp] at he ⊢
      by_cases hc : MicrosoftService.isInvalidCursorError err = true
      · rw [if_pos hc] at he ⊢
        injection he with he
        rw [← he, if_pos hc]
      · rw [if_neg hc] at he ⊢
        injection he with he
        rw [← he, if_neg hc]
  · intro e he
    cases hfp : MicrosoftService.fetchPagesAux providerC 20 20
        (match MicrosoftService.getDeltaLink rowsC acct "calendar" with
          | some dl => MicrosoftService.GraphRequest.link dl
          | none => MicrosoftService.GraphRequest.initialCalendar (now - daysBack) (now + 90))
        0 [] none [] with
    | ok res =>
      obtain ⟨evs, dl, trace⟩ := res
      simp only [MicrosoftService.fetchCalendarEvents, hfp] at he
      exact Except.noConfusion he
    | error err =>
      simp only [MicrosoftService.fetchCalendarEvents, hfp] at he ⊢
      by_cases hc : MicrosoftService.isInvalidCursorError err = true
      · rw [if_pos hc] at he ⊢
        injection he with he
        rw [← he, if_pos hc]
      · rw [if_neg hc] at he ⊢
        injection he with he
        rw [← he, if_neg hc]

/-- Witness for C8: a stored `messages` cursor row, one provider
failing with a 410 invalid-delta error (row deleted) and one failing
with a plain network error (row untouched); both errors propagate. -/
theorem claim_C8_witness :
    (MicrosoftService.fetchMessages
        (fun _ => .error ⟨"delta token expired", some 410⟩)
        [⟨MicrosoftService.USER_ID, "microsoft_graph", "a@b.c", "messages", "DL", "T0"⟩]
        "a@b.c" 30 100 "T1").2 =
      .error ⟨"delta token expired", some 410⟩ ∧
    (MicrosoftService.fetchMessages
        (fun _ => .error ⟨"delta token expired", some 410⟩)
        [⟨MicrosoftService.USER_ID, "microsoft_graph", "a@b.c", "messages", "DL", "T0"⟩]
        "a@b.c" 30 100 "T1").1 = [] ∧
    (MicrosoftService.fetchMessages
        (fun _ => .error ⟨"socket hang up", none⟩)
        [⟨MicrosoftService.USER_ID, "microsoft_graph", "a@b.c", "messages", "DL", "T0"⟩]
        "a@b.c" 30 100 "T1").2 =
      .error ⟨"socket hang up", none⟩ ∧
    (MicrosoftService.fetchMessages
        (fun _ => .error ⟨"socket hang up", none⟩)
        [⟨MicrosoftService.USER_ID, "microsoft_graph", "a@b.c", "messages", "DL", "T0"⟩]
        "a@b.c" 30 100 "T1").1 =
      [⟨MicrosoftService.USER_ID, "microsoft_graph", "a@b.c", "messages", "DL", "T0"⟩] := by
  have he1 : (MicrosoftService.fetchMessages
      (fun _ => .error ⟨"delta token expired", some 410⟩)
      [⟨MicrosoftService.USER_ID, "microsoft_graph", "a@b.c", "messages", "DL", "T0"⟩]
      "a@b.c" 30 100 "T1").2 = .error ⟨"delta token expired", some 410⟩ := by rfl
  have he2 : (MicrosoftService.fetchMessages
      (fun _ => .error ⟨"socket hang up", none⟩)
      [⟨MicrosoftService.USER_ID, "microsoft_graph", "a@b.c", "messages", "DL", "T0"⟩]
      "a@b.c" 30 100 "T1").2 = .error ⟨"socket hang up", none⟩ := by rfl
  have h1 := (claim_C8_invalid_cursor_reset
    (fun _ => .error ⟨"delta token expired", some 410⟩)
    (fun _ => .error ⟨"unused", none⟩)
    [⟨MicrosoftService.USER_ID, "microsoft_graph", "a@b.c", "messages", "DL", "T0"⟩]
    [] "a@b.c" 30 100 "T1").1 _ he1
  have h2 := (claim_C8_invalid_cursor_reset
    (fun _ => .error ⟨"socket hang up", none⟩)
    (fun _ => .error ⟨"unused", none⟩)
    [⟨MicrosoftService.USER_ID, "microsoft_graph", "a@b.c", "messages", "DL", "T0"⟩]
    [] "a@b.c" 30 100 "T1").1 _ he2
  refine ⟨he1, ?_, he2, ?_⟩
  · rw [h1]
    rfl
  · rw [h2]
    rfl

/-! ## Claim C9 -/

/-- C9: on a successful fetch, the first request issued is the stored
cursor link when one exists and the initial windowed query otherwise
(messages: the lookback filter; calendar: the lookback start to 90
days ahead); the surfaced cursor is exactly the terminal delta token
of the final fetched page (`lastPageDelta`), and a new cursor row is
persisted if and only if such a token was surfaced — otherwise the
`sync_state` table is returned untouched. -/
theorem claim_C9_cursor_resumption
    (provider : MicrosoftService.GraphRequest →
      Except MicrosoftService.GraphError (MicrosoftService.GraphPage RawMessage))
    (providerC : MicrosoftService.GraphRequest →
      Except MicrosoftService.GraphError (MicrosoftService.GraphPage RawGraphEvent))
    (rows rowsC : List MicrosoftService.SyncRow) (acct : String)
    (daysBack now : Int) (nowIso : String) :
    (∀ rows' msgs dl trace,
      MicrosoftService.fetchMessages provider rows acct daysBack now nowIso =
        (rows', .ok (msgs, dl, trace)) →
      trace.head? = some (match MicrosoftService.getDeltaLink rows acct "messages" with
        | some d => MicrosoftService.GraphRequest.link d
        | none => MicrosoftService.GraphRequest.initialMessages (now - daysBack)) ∧
      dl = MicrosoftService.lastPageDelta provider trace ∧
      rows' = (match dl with
        | some d => MicrosoftService.saveDeltaLink rows acct "messages" d nowIso
        | none => rows)) ∧
    (∀ rows' evs dl trace,
      MicrosoftService.fetchCalendarEvents providerC rowsC acct daysBack now nowIso =
        (rows', .ok (evs, dl, trace)) →
      trace.head? = some (match MicrosoftService.getDeltaLink rowsC acct "calendar" with
        | some d => MicrosoftService.GraphRequest.link d
        | none => MicrosoftService.GraphRequest.initialCalendar (now - daysBack) (now + 90)) ∧
      dl = MicrosoftService.lastPageDelta providerC trace ∧
      rows' = (match dl with
        | some d => MicrosoftService.saveDeltaLink rowsC acct "calendar" d nowIso
        | none => rowsC)) := by
  constructor
  · intro rows' msgs dl trace h
    cases hfp : MicrosoftService.fetchPagesAux provider 20 20
        (match MicrosoftService.getDeltaLink rows acct "messages" with
          | some d => MicrosoftService.GraphRequest.link d
          | none => MicrosoftService.GraphRequest.initialMessages (now - daysBack))
        0 [] none [] with
    | ok res =>
      obtain ⟨msgs0, dl0, trace0⟩ := res
      simp only [MicrosoftService.fetchMessages, hfp] at h
      have hsnd : dl0 = dl ∧ msgs0 = msgs ∧ trace0 = trace := by
        cases hdl0 : dl0 <;> rw [hdl0] at h <;>
          simp only [Prod.mk.injEq] at h <;>
          obtain ⟨-, h2⟩ := h <;>
          injection h2 with h2 <;>
          injection h2 with ha h2 <;>
          injection h2 with hb hc <;>
          exact ⟨by rw [hb], by rw [ha], by rw [hc]⟩
      obtain ⟨hd, hm, ht⟩ := hsnd
      subst hd hm ht
      refine ⟨?_, ?_, ?_⟩
      · exact fetchPagesAux_ok_head provider 20 20 _ _ _ _ (by omega) (by omega) hfp
      · exact fetchPagesAux_ok_delta provider 20 20 _ 0 [] [] _ _ _
          (fun r hr => absurd hr (by simp)) hfp
      · cases hdl : dl0 <;> rw [hdl] at h <;>
          simp only [Prod.mk.injEq] at h <;> exact h.1.symm
    | error err =>
      simp only [MicrosoftService.fetchMessages, hfp] at h
      by_cases hc : MicrosoftService.isInvalidCursorError err = true <;>
        [rw [if_pos hc] at h; rw [if_neg hc] at h] <;>
        simp only [Prod.mk.injEq] at h <;>
        exact Except.noConfusion h.2
  · intro rows' evs dl trace h
    cases hfp : MicrosoftService.fetchPagesAux providerC 20 20
        (match MicrosoftService.getDeltaLink rowsC acct "calendar" with
          | some d => MicrosoftService.GraphRequest.link d
          | none => MicrosoftService.GraphRequest.initialCalendar (now - daysBack) (now + 90))
        0 [] none [] with
    | ok res =>
      obtain ⟨evs0, dl0, trace0⟩ := res
      simp only [MicrosoftService.fetchCalendarEvents, hfp] at h
      have hsnd : dl0 = dl ∧ evs0 = evs ∧ trace0 = trace := by
        cases hdl0 : dl0 <;> rw [hdl0] at h <;>
          simp only [Prod.mk.injEq] at h <;>
          obtain ⟨-, h2⟩ := h <;>
          injection h2 with h2 <;>
          injection h2 with ha h2 <;>
          injection h2 with hb hc <;>
          exact ⟨by rw [hb], by rw [ha], by rw [hc]⟩
      obtain ⟨hd, hm, ht⟩ := hsnd
      subst hd hm ht
      refine ⟨?_, ?_, ?_⟩
      · exact fetchPagesAux_ok_head providerC 20 20 _ _ _ _ (by omega) (by omega) hfp
      · exact fetchPagesAux_ok_delta providerC 20 20 _ 0 [] [] _ _ _
          (fun r hr => absurd hr (by simp)) hfp
      · cases hdl : dl0 <;> rw [hdl] at h <;>
          simp only [Prod.mk.injEq] at h <;> exact h.1.symm
    | error err =>
      simp only [MicrosoftService.fetchCalendarEvents, hfp] at h
      by_cases hc : MicrosoftService.isInvalidCursorError err = true <;>
        [rw [if_pos hc] at h; rw [if_neg hc] at h] <;>
        simp only [Prod.mk.injEq] at h <;>
        exact Except.noConfusion h.2

/-- Witness for C9: a stored cursor `DL` is resumed as the first
request; the single returned page carries terminal delta token `D2`,
which is persisted over the old cursor row. -/
theorem claim_C9_witness :
    MicrosoftService.fetchMessages
        (fun _ => .ok ⟨[⟨none, none, none, none, none, none⟩], none, some "D2"⟩)
        [⟨MicrosoftService.USER_ID, "microsoft_graph", "a@b.c", "messages", "DL", "T0"⟩]
        "a@b.c" 30 100 "T1" =
      ([⟨MicrosoftService.USER_ID, "microsoft_graph", "a@b.c", "messages", "D2", "T1"⟩],
        .ok ([⟨none, none, none, none, none, none⟩], some "D2",
          [MicrosoftService.GraphRequest.link "DL"])) ∧
    [MicrosoftService.GraphRequest.link "DL"].head? =
      some (MicrosoftService.GraphRequest.link "DL") ∧
    some "D2" = MicrosoftService.lastPageDelta
      (fun _ => .ok ⟨[(⟨none, none, none, none, none, none⟩ : RawMessage)], none, some "D2"⟩)
      [MicrosoftService.GraphRequest.link "DL"] ∧
    [(⟨MicrosoftService.USER_ID, "microsoft_graph", "a@b.c", "messages", "D2", "T1"⟩ :
        MicrosoftService.SyncRow)] =
      MicrosoftService.saveDeltaLink
        [⟨MicrosoftService.USER_ID, "microsoft_graph", "a@b.c", "messages", "DL", "T0"⟩]
        "a@b.c" "messages" "D2" "T1" := by
  have h : MicrosoftService.fetchMessages
      (fun _ => .ok ⟨[⟨none, none, none, none, none, none⟩], none, some "D2"⟩)
      [⟨MicrosoftService.USER_ID, "microsoft_graph", "a@b.c", "messages", "DL", "T0"⟩]
      "a@b.c" 30 100 "T1" =
      ([⟨MicrosoftService.USER_ID, "microsoft_graph", "a@b.c", "messages", "D2", "T1"⟩],
        .ok ([⟨none, none, none, none, none, none⟩], some "D2",
          [MicrosoftService.GraphRequest.link "DL"])) := by rfl
  have hc := (claim_C9_cursor_resumption
    (fun _ => .ok ⟨[⟨none, none, none, none, none, none⟩], none, some "D2"⟩)
    (fun _ => .error ⟨"unused", none⟩)
    [⟨MicrosoftService.USER_ID, "microsoft_graph", "a@b.c", "messages", "DL", "T0"⟩]
    [] "a@b.c" 30 100 "T1").1 _ _ _ _ h
  exact ⟨h, hc.1, hc.2.1, hc.2.2⟩
